import Mathlib

/-!
Verification of the creation-date resolution and renaming logic of
`mkv-rename` (`src/main.rs`), shallowly embedded in Lean.

Modelling conventions:
* `time::OffsetDateTime` values are represented by their Unix timestamp in
  seconds (`Int`); sub-second precision plays no role in any property here.
* The external ISO-8601 parser (`OffsetDateTime::parse` with
  `Iso8601::DEFAULT`) is an opaque collaborator; the resolver definitions
  take it as an explicit function argument `parse : String → Option Int`.
* Machine integers are modelled as `Nat`/`Int` with explicit reductions
  modulo `2 ^ w` where overflow or casts matter.
* `f32` values are modelled exactly as integer multiples of `2 ^ (-149)`
  (every finite single-precision float is such a multiple); an `Int` value
  `n` stands for the real number `n / 2 ^ 149`.
-/

set_option autoImplicit false
set_option maxRecDepth 8192

namespace MkvRename

/-! ## Matroska data model (matroska crate, fields used by `main.rs`) -/

/-- A Matroska simple-tag value: UTF-8 string or opaque binary blob. -/
inductive TagValue where
  | String (s : String)
  | Binary (b : List Nat)
  deriving DecidableEq

/-- A Matroska simple tag: a name and an optional polymorphic value. -/
structure SimpleTag where
  name : String
  value : Option TagValue
  deriving DecidableEq

/-- A Matroska tag block: an ordered list of simple tags. -/
structure Tag where
  simple : List SimpleTag
  deriving DecidableEq

/-- The segment-level info element; only `date_utc` is consulted. -/
structure Info where
  date_utc : Option Int
  deriving DecidableEq

/-- The parts of a parsed Matroska document used by the resolver. -/
structure Matroska where
  info : Info
  tags : List Tag
  deriving DecidableEq

/-- ASCII lower-casing of one character. -/
def asciiLowerChar (c : Char) : Char :=
  if 'A' ≤ c ∧ c ≤ 'Z' then Char.ofNat (c.toNat + 32) else c

/-- `str::to_ascii_lowercase`: lower-case ASCII letters, leave the rest
(character-wise map; ASCII bytes are single UTF-8 code units, so the
byte-wise Rust operation agrees with this character-wise one). -/
def asciiLowercase (s : String) : String :=
  ⟨s.data.map asciiLowerChar⟩

/-- The tag name the Matroska resolver searches for. -/
def qtName : String := "com.apple.quicktime.creationdate"

/-- The value a single matched simple tag contributes: parse string values
with the ISO-8601 parser, treat binary values as no result
(`main.rs` lines 144-149, the `and_then` body). -/
def qt_entry_value (parse : String → Option Int) (e : SimpleTag) : Option Int :=
  e.value.bind fun val =>
    match val with
    | TagValue.String s => parse s
    | TagValue.Binary _ => none

/-- The date a single tag block contributes: find the first simple entry
whose ASCII-lowercased name equals `com.apple.quicktime.creationdate`,
then decode its value (`main.rs` lines 141-149, the `find_map` closure). -/
def block_qt_value (parse : String → Option Int) (tag : Tag) : Option Int :=
  (tag.simple.find? fun simple => asciiLowercase simple.name == qtName).bind
    (qt_entry_value parse)

/-- `quicktime_creation_date` (`main.rs` lines 139-151): the first tag
block, in stored order, whose matched entry decodes to a date. -/
def quicktime_creation_date (parse : String → Option Int) (mkv : Matroska) :
    Option Int :=
  mkv.tags.findSome? (block_qt_value parse)

/-- `mkv_creation_date` (`main.rs` lines 135-137): QuickTime tag first,
else the segment info date. -/
def mkv_creation_date (parse : String → Option Int) (mkv : Matroska) :
    Option Int :=
  match quicktime_creation_date parse mkv with
  | some v => some v
  | none => mkv.info.date_utc

/-! ## MP4 resolver and the `time` crate's timestamp range -/

/-- Least Unix timestamp accepted by `OffsetDateTime::from_unix_timestamp`
(the `time` crate without `large-dates`): -9999-01-01T00:00:00Z. -/
def unixTsMin : Int := -377705116800

/-- Greatest accepted Unix timestamp: 9999-12-31T23:59:59Z. -/
def unixTsMax : Int := 253402300799

/-- `OffsetDateTime::from_unix_timestamp(ts).ok()`. -/
def from_unix_timestamp (ts : Int) : Option Int :=
  if unixTsMin ≤ ts ∧ ts ≤ unixTsMax then some ts else none

/-- The Rust cast `u64 as i64`: two's-complement reinterpretation. -/
def u64_as_i64 (x : Nat) : Int :=
  if x < 2 ^ 63 then (x : Int) else (x : Int) - 2 ^ 64

/-- Reduce an integer into the `i64` range by wrapping (release-mode
two's-complement arithmetic). -/
def i64_wrap (x : Int) : Int :=
  (x + 2 ^ 63) % 2 ^ 64 - 2 ^ 63

/-- `mp4_creation_date` (`main.rs` lines 127-133): `creation_time` is the
`u64` field `moov.mvhd.creation_time`; the code computes
`creation_time as i64 - 2082844800` and feeds it to
`from_unix_timestamp`. -/
def mp4_creation_date (creation_time : Nat) : Option Int :=
  from_unix_timestamp (i64_wrap (u64_as_i64 creation_time - 2082844800))

/-! ## Exact model of the finite `f32` values used by the offset pipeline

A finite single-precision float is an integer multiple of `2 ^ (-149)`.
We represent the value `n / 2 ^ 149` by `n : Int`.  IEEE-754 binary
operations round the exact real result to the nearest representable
value, ties to the even mantissa; `roundToF32` below performs exactly
that rounding for a dyadic rational input `p / 2 ^ k` (for results in the
finite range; the offset pipeline never reaches infinities or NaN). -/

/-- Round `a / d` (`d > 0`) to the nearest integer, ties to even. -/
def rtneDiv (a : Int) (d : Int) : Int :=
  let q := a / d
  let r := a % d
  if 2 * r < d then q
  else if d < 2 * r then q + 1
  else if q % 2 = 0 then q else q + 1

/-- Fuel-driven binary length, so that the kernel can evaluate it on
large literals: `bitLenAux fuel n` is the number of binary digits of `n`
whenever `n < 2 ^ fuel`. -/
def bitLenAux : Nat → Nat → Nat
  | 0, _ => 0
  | fuel + 1, n => if n = 0 then 0 else bitLenAux fuel (n / 2) + 1

/-- Number of binary digits; 1024 bits of fuel covers every quantity the
`f32` model produces (all magnitudes here are below `2 ^ 600`). -/
def bitLen (n : Nat) : Nat :=
  bitLenAux 1024 n

/-- Round the real number `p / 2 ^ k` to the nearest representable finite
`f32` (ties to even mantissa), returned as a multiple of `2 ^ (-149)`:
the result `r` stands for `r / 2 ^ 149`.  The grid spacing at magnitude
`2 ^ E` is `2 ^ (E - 23)`, floored at the subnormal spacing
`2 ^ (-149)`. -/
def roundToF32 (p : Int) (k : Nat) : Int :=
  if p = 0 then 0
  else
    let b : Nat := bitLen p.natAbs
    let t : Nat := ((b : Int) + 125 - (k : Int)).toNat
    2 ^ t * rtneDiv (p * 2 ^ 149) (2 ^ (k + t))

/-- IEEE-754 `f32` multiplication of two finite values (both given as
multiples of `2 ^ (-149)`): round the exact product. -/
def mulF32 (n1 n2 : Int) : Int :=
  roundToF32 (n1 * n2) 298

/-- `f32::round`: round to the nearest integer, ties away from zero.
The argument and result are multiples of `2 ^ (-149)`. -/
def f32Round (n : Int) : Int :=
  (if 0 ≤ n then (n + 2 ^ 148) / 2 ^ 149 else -((-n + 2 ^ 148) / 2 ^ 149)) * 2 ^ 149

/-- Clamp an integer into the `i32` range (the saturation performed by
Rust's float-to-int `as` cast). -/
def i32sat (y : Int) : Int :=
  max (-(2 ^ 31)) (min (2 ^ 31 - 1) y)

/-- `f32_to_i32` (`main.rs` lines 161-163):
`(x == (x as i32) as f32).then(|| x as i32)`.  The input is a finite
`f32` given as a multiple of `2 ^ (-149)`.  `x as i32` truncates toward
zero and saturates; `as f32` rounds the `i32` back to the nearest
`f32`. -/
def f32_to_i32 (n : Int) : Option Int :=
  if roundToF32 (i32sat (Int.tdiv n (2 ^ 149))) 0 = n then
    some (i32sat (Int.tdiv n (2 ^ 149)))
  else none

/-- The constant `60.0 : f32` in the scaled representation. -/
def sixtyF32 : Int := 60 * 2 ^ 149

/-- The offset computation of `main` (`main.rs` line 37):
`f32_to_i32((tz_offset * 60. * 60.).round())`, entirely in `f32`
arithmetic.  The argument is the parsed `--tz-offset` value as a scaled
finite `f32`; the result is the run-wide offset in whole seconds, or
`none` for the fatal "offset too big" configuration error. -/
def computed_offset (v : Int) : Option Int :=
  f32_to_i32 (f32Round (mulF32 (mulF32 v sixtyF32) sixtyF32))

/-! ## Paths

Rust `std::path::Path` semantics (Unix), modelled at the level of parsed
components: a path is a root flag plus the list of components that
`Path::components` yields (empty and lone-dot segments are already
normalised away by the parser, which is why they do not appear here).
File names are `String`s: `OsStr::to_string_lossy` is the identity on the
valid-UTF-8 names considered here. -/

/-- One parsed path component. -/
inductive Component where
  | normal (s : String)
  | parentDir
  | curDir
  deriving DecidableEq

/-- A parsed path: whether it is absolute, and its components. -/
structure RPath where
  absolute : Bool
  comps : List Component
  deriving DecidableEq

/-- `Path::file_name`: the final component when it is a normal one. -/
def file_name (p : RPath) : Option String :=
  match p.comps.getLast? with
  | some (Component.normal s) => some s
  | _ => none

/-- `Path::parent`: the path without its final component; `none` for a
bare root or the empty path. -/
def parent (p : RPath) : Option RPath :=
  match p.comps with
  | [] => none
  | _ => some ⟨p.absolute, p.comps.dropLast⟩

/-- `rsplit_file_at_dot` from `std::path`: split a file name at the last
dot into `(before, after)`; `".."` and dotless names are special. -/
def rsplitDot (f : String) : Option String × Option String :=
  if f = ".." then (some f, none)
  else
    let cs := f.toList
    let afterRev := cs.reverse.takeWhile fun c => c ≠ '.'
    if afterRev.length = cs.length then (none, some f)
    else
      let before := (cs.take (cs.length - afterRev.length - 1)).asString
      let after := afterRev.reverse.asString
      if before = "" then (some f, none) else (some before, some after)

/-- `Path::extension`: the after-dot part, provided the before-dot part
is nonempty (`before.and(after)` in `std`). -/
def extension (p : RPath) : Option String :=
  (file_name p).bind fun f =>
    let ba := rsplitDot f
    ba.1.bind fun _ => ba.2

/-- `PathBuf::set_file_name` as used by `Path::with_file_name`: pop the
final component when a file name is present, then push the new name. -/
def with_file_name (p : RPath) (f : String) : RPath :=
  let base := if (file_name p).isSome then p.comps.dropLast else p.comps
  ⟨p.absolute, base ++ [Component.normal f]⟩

/-- `generate_new_path` (`main.rs` lines 153-159): prepend the decimal
Unix timestamp and a space to the file name.  The source unwraps
`path.file_name()`; `none` here models that panic. -/
def generate_new_path (p : RPath) (creation_date : Int) : Option RPath :=
  (file_name p).map fun f =>
    with_file_name p (toString creation_date ++ " " ++ f)

/-! ## Dispatcher, effects and the per-file drivers -/

/-- The two recognised container kinds. -/
inductive ContainerKind where
  | matroska
  | mp4Kind
  deriving DecidableEq

/-- The extension dispatch of `process` (`main.rs` lines 68-78):
lower-cased extension `mkv` is Matroska; `mov`, `mp4`, `m4v` are MP4;
anything else (including a missing extension) is unrecognised. -/
def classify (p : RPath) : Option ContainerKind :=
  match (extension p).map asciiLowercase with
  | some "mkv" => some ContainerKind.matroska
  | some "mov" => some ContainerKind.mp4Kind
  | some "mp4" => some ContainerKind.mp4Kind
  | some "m4v" => some ContainerKind.mp4Kind
  | _ => none

/-- Observable effects of processing one file: the `println!` report line
(original path, new path, final timestamp) and the `fs::rename` call. -/
inductive Effect where
  | report (src dst : RPath) (ts : Int)
  | rename (src dst : RPath)
  deriving DecidableEq

/-- `maybe_do_rename` (`main.rs` lines 119-125): call `fs::rename` unless
`dry_run` is set.  The effect list records whether the call occurs. -/
def maybe_do_rename (path newPath : RPath) (dry_run : Bool) : List Effect :=
  if dry_run then [] else [Effect.rename path newPath]

/-- What a parsed input file contains, as handed to the resolvers. -/
inductive FileData where
  | mkvData (doc : Matroska)
  | mp4Data (creation_time : Nat)
  deriving DecidableEq

/-- `process_matroska` (`main.rs` lines 80-96) for an already parsed
document: resolve the date, add the offset, compute the new path, print
the report, then maybe rename.  Returns the effects and whether the file
was processed successfully; resolution failure (and the out-of-model
`file_name` unwrap panic) produce no effects. -/
def process_matroska_eff (parse : String → Option Int) (path : RPath)
    (doc : Matroska) (offset : Int) (dry_run : Bool) : List Effect × Bool :=
  match mkv_creation_date parse doc with
  | none => ([], false)
  | some t =>
    let datetime := t + offset
    match generate_new_path path datetime with
    | none => ([], false)
    | some newPath =>
      (Effect.report path newPath datetime :: maybe_do_rename path newPath dry_run,
       true)

/-- `process_mp4` (`main.rs` lines 98-117) for an already parsed header. -/
def process_mp4_eff (path : RPath) (creation_time : Nat) (offset : Int)
    (dry_run : Bool) : List Effect × Bool :=
  match mp4_creation_date creation_time with
  | none => ([], false)
  | some t =>
    let datetime := t + offset
    match generate_new_path path datetime with
    | none => ([], false)
    | some newPath =>
      (Effect.report path newPath datetime :: maybe_do_rename path newPath dry_run,
       true)

/-- `process` (`main.rs` lines 68-78): dispatch on the extension; a
mismatch between the extension and the file's actual content is a parse
failure of the chosen reader, hence an error with no effects. -/
def process_eff (parse : String → Option Int) (path : RPath) (data : FileData)
    (offset : Int) (dry_run : Bool) : List Effect × Bool :=
  match classify path, data with
  | some ContainerKind.matroska, FileData.mkvData doc =>
    process_matroska_eff parse path doc offset dry_run
  | some ContainerKind.mp4Kind, FileData.mp4Data ct =>
    process_mp4_eff path ct offset dry_run
  | _, _ => ([], false)

/-- The driver structure of `main` (`main.rs` lines 37-65): compute the
run-wide offset first — failure is fatal, no file is touched — then
process every file with that one offset, accumulating effects and the
overall success flag. -/
def main_model (parse : String → Option Int) (tz_offset : Option Int)
    (dry_run : Bool) (files : List (RPath × FileData)) : List Effect × Bool :=
  match computed_offset (tz_offset.getD 0) with
  | none => ([], false)
  | some offset =>
    files.foldl
      (fun acc pf =>
        let r := process_eff parse pf.1 pf.2 offset dry_run
        (acc.1 ++ r.1, acc.2 && r.2))
      ([], true)

/-! ## Concrete example values -/

/-- A possible behaviour of the external ISO-8601 parser: it decodes one
well-formed timestamp string and rejects everything else. -/
def parseEx : String → Option Int := fun s =>
  if s = "2023-04-12T13:35:01+10:00" then some 1681270501 else none

/-- A matching simple tag whose value is a parseable ISO-8601 string. -/
def qtStringEntry : SimpleTag :=
  { name := qtName, value := some (TagValue.String "2023-04-12T13:35:01+10:00") }

/-- A matching simple tag whose value is binary. -/
def qtBinaryEntry : SimpleTag :=
  { name := qtName, value := some (TagValue.Binary [0]) }

/-- One tag block whose first matching entry is binary and whose second
matching entry carries a parseable string; info date present. -/
def shadowedDoc : Matroska :=
  { info := { date_utc := some 5 }, tags := [{ simple := [qtBinaryEntry, qtStringEntry] }] }

/-- A document with a single parseable QuickTime entry and an info date. -/
def goodDoc : Matroska :=
  { info := { date_utc := some 5 }, tags := [{ simple := [qtStringEntry] }] }

/-- First tag block carries a binary matching entry, a later block a
parseable one; info date present. -/
def badThenGoodDoc : Matroska :=
  { info := { date_utc := some 5 }
    tags := [{ simple := [qtBinaryEntry] }, { simple := [qtStringEntry] }] }

/-- A document whose only matching entry is binary; info date present. -/
def binaryOnlyDoc : Matroska :=
  { info := { date_utc := some 7 }, tags := [{ simple := [qtBinaryEntry] }] }

/-- The path `folder/IMG_4792.mkv` from the repository's test. -/
def pathEx : RPath :=
  ⟨false, [Component.normal "folder", Component.normal "IMG_4792.mkv"]⟩

/-- The first simple entry, in stored order across all tag blocks, whose
name matches `com.apple.quicktime.creationdate` case-insensitively (the
entry claim C3 says is the only one considered). -/
def first_qt_entry (mkv : Matroska) : Option SimpleTag :=
  mkv.tags.findSome? fun t =>
    t.simple.find? fun simple => asciiLowercase simple.name == qtName

/-! ## Claims -/

/-- C1, counterexample: `shadowedDoc` contains a tag block with a simple
entry named `com.apple.quicktime.creationdate` whose string value parses
(to 1681270501), and a segment info date (5); yet the resolved date is
the info date, not the decoded tag value, because the block's first
matching entry is binary and shadows the parseable one. -/
theorem C1_counterexample :
    (∃ t ∈ shadowedDoc.tags, ∃ e ∈ t.simple,
        asciiLowercase e.name = qtName ∧
        ∃ s, e.value = some (TagValue.String s) ∧ parseEx s = some 1681270501) ∧
    shadowedDoc.info.date_utc = some 5 ∧
    mkv_creation_date parseEx shadowedDoc = some 5 ∧
    (5 : Int) ≠ 1681270501 := by
  refine ⟨⟨{ simple := [qtBinaryEntry, qtStringEntry] }, by decide, qtStringEntry, by decide,
      by decide, "2023-04-12T13:35:01+10:00", rfl, by decide⟩, rfl, by decide, by decide⟩

/-- C1 (amended): whenever some tag block's first case-insensitively
matching simple entry has a string value that the ISO-8601 parser
accepts — i.e. some block contributes a decoded QuickTime value — the
resolved Matroska creation date is that QuickTime value, taken from the
tag scan and not from the segment info date. -/
theorem C1_amended (parse : String → Option Int) (mkv : Matroska)
    (h : ∃ t ∈ mkv.tags, (block_qt_value parse t).isSome) :
    ∃ v, quicktime_creation_date parse mkv = some v ∧
      mkv_creation_date parse mkv = some v := by
  have hs : (quicktime_creation_date parse mkv).isSome := by
    unfold quicktime_creation_date
    exact List.findSome?_isSome_iff.mpr (by simpa using h)
  obtain ⟨v, hv⟩ := Option.isSome_iff_exists.mp hs
  exact ⟨v, hv, by simp [mkv_creation_date, hv]⟩

/-- C1, witness: a document with one parseable QuickTime entry and an
info date resolves to the QuickTime value. -/
theorem C1_witness :
    ∃ v, quicktime_creation_date parseEx goodDoc = some v ∧
      mkv_creation_date parseEx goodDoc = some v :=
  C1_amended parseEx goodDoc (by decide)

/-- C2: if every tag block's matched QuickTime entry carries a binary
value or a string the ISO-8601 parser rejects, and the segment info date
is present, resolution does not fail and returns the info date. -/
theorem C2_fall_through (parse : String → Option Int) (mkv : Matroska) (d : Int)
    (hinfo : mkv.info.date_utc = some d)
    (hbad : ∀ t ∈ mkv.tags, ∀ e,
        t.simple.find? (fun simple => asciiLowercase simple.name == qtName) = some e →
        (∃ b, e.value = some (TagValue.Binary b)) ∨
        (∃ s, e.value = some (TagValue.String s) ∧ parse s = none)) :
    mkv_creation_date parse mkv = some d := by
  have hq : quicktime_creation_date parse mkv = none := by
    unfold quicktime_creation_date
    refine List.findSome?_eq_none_iff.mpr fun t ht => ?_
    unfold block_qt_value
    cases hf : t.simple.find? fun simple => asciiLowercase simple.name == qtName with
    | none => rfl
    | some e =>
      rcases hbad t ht e hf with ⟨b, hb⟩ | ⟨s, hs, hps⟩
      · simp [qt_entry_value, hb]
      · simp [qt_entry_value, hs, hps]
  simp [mkv_creation_date, hq, hinfo]

/-- C2, witness: a document whose only matching entry is binary resolves
to its info date. -/
theorem C2_witness : mkv_creation_date parseEx binaryOnlyDoc = some 7 := by
  refine C2_fall_through parseEx binaryOnlyDoc 7 rfl ?_
  intro t ht e he
  have ht' : t = { simple := [qtBinaryEntry] } := by
    simpa [binaryOnlyDoc] using ht
  subst ht'
  have : some qtBinaryEntry = some e := by
    rw [← he]; decide
  exact Or.inl ⟨[0], by cases this; rfl⟩

/-- C3, counterexample: in `badThenGoodDoc` the first matching entry in
stored order across all tag blocks is binary, and an info date (5) is
present; yet resolution does not fall through to the info date — it
returns the value (1681270501) decoded from a later tag block. -/
theorem C3_counterexample :
    first_qt_entry badThenGoodDoc = some qtBinaryEntry ∧
    badThenGoodDoc.info.date_utc = some 5 ∧
    mkv_creation_date parseEx badThenGoodDoc = some 1681270501 ∧
    (1681270501 : Int) ≠ 5 := by
  refine ⟨by decide, rfl, by decide, by decide⟩

/-- C3 (amended): within one tag block only the first matching entry is
considered, but across blocks the scan continues: a block whose matched
entry yields nothing (binary, unparseable, or valueless) is skipped and
resolution proceeds with the remaining blocks, falling back to the info
date only after every block has failed. -/
theorem C3_amended :
    (∀ (parse : String → Option Int) (i : Info) (t : Tag) (ts : List Tag),
        block_qt_value parse t = none →
        mkv_creation_date parse ⟨i, t :: ts⟩ = mkv_creation_date parse ⟨i, ts⟩) ∧
    (∀ (parse : String → Option Int) (e : SimpleTag) (es : List SimpleTag),
        (asciiLowercase e.name == qtName) = true →
        block_qt_value parse ⟨e :: es⟩ = qt_entry_value parse e) := by
  constructor
  · intro parse i t ts h
    unfold mkv_creation_date quicktime_creation_date
    rw [List.findSome?_cons_of_isNone _ (by simp [h])]
  · intro parse e es h
    unfold block_qt_value
    simp only [List.find?, h, Option.some_bind]

/-- C3, witness: a block whose matched entry is binary is skipped, and a
block headed by a matching entry contributes that entry's value. -/
theorem C3_witness :
    mkv_creation_date parseEx ⟨⟨some 5⟩, { simple := [qtBinaryEntry] } :: [{ simple := [qtStringEntry] }]⟩ =
      mkv_creation_date parseEx ⟨⟨some 5⟩, [{ simple := [qtStringEntry] }]⟩ ∧
    block_qt_value parseEx ⟨qtStringEntry :: []⟩ = qt_entry_value parseEx qtStringEntry :=
  ⟨C3_amended.1 parseEx ⟨some 5⟩ { simple := [qtBinaryEntry] } [{ simple := [qtStringEntry] }] (by decide),
   C3_amended.2 parseEx qtStringEntry [] (by decide)⟩

/-- Helper: for a `creation_time` below `2 ^ 63` the `u64 as i64` cast is
value-preserving and the subtraction does not wrap, so the resolver
checks the mathematical difference against the timestamp range. -/
theorem mp4_creation_date_eq_of_lt (ct : Nat) (h : ct < 2 ^ 63) :
    mp4_creation_date ct = from_unix_timestamp ((ct : Int) - 2082844800) := by
  unfold mp4_creation_date u64_as_i64 i64_wrap
  rw [if_pos h, Int.emod_eq_of_lt (by omega) (by omega)]
  congr 1
  omega

/-- C4: whenever the mathematical difference `creation_time - 2082844800`
lies in the representable timestamp range, the MP4 resolver returns
exactly that Unix timestamp; in particular `creation_time = 2082844800`
resolves to Unix timestamp 0, and `creation_time = 0` is accepted as-is,
resolving to the 1904-01-01 epoch (-2082844800), not treated as absent. -/
theorem C4_mp4_epoch_conversion :
    (∀ ct : Nat, unixTsMin ≤ (ct : Int) - 2082844800 →
        (ct : Int) - 2082844800 ≤ unixTsMax →
        mp4_creation_date ct = some ((ct : Int) - 2082844800)) ∧
    mp4_creation_date 2082844800 = some 0 ∧
    mp4_creation_date 0 = some (-2082844800) := by
  refine ⟨?_, by decide, by decide⟩
  intro ct h1 h2
  rw [mp4_creation_date_eq_of_lt ct (by simp [unixTsMax] at h2; omega)]
  unfold from_unix_timestamp
  rw [if_pos ⟨h1, h2⟩]

/-- Nat-side form of the bound used by `C5_amended`. -/
theorem lt_two_pow_63_of_int {ct : Nat} (h : (ct : Int) < 2 ^ 63) : ct < 2 ^ 63 := by
  omega

/-- C4, witness: `creation_time = 3682844800` resolves to Unix timestamp
1600000000. -/
theorem C4_witness : mp4_creation_date 3682844800 = some 1600000000 := by
  have h := C4_mp4_epoch_conversion.1 3682844800 (by decide) (by decide)
  simpa using h

/-- C5, counterexample: `creation_time = 2 ^ 64 - 1` (u64::MAX) has a
mathematical conversion far beyond the representable range, yet MP4
resolution does not fail: the `u64 as i64` cast wraps, and the resolver
returns the valid timestamp -2082844801 (1903-12-31T23:59:59Z). -/
theorem C5_counterexample :
    mp4_creation_date (2 ^ 64 - 1) = some (-2082844801) ∧
    unixTsMax < ((2 ^ 64 - 1 : Nat) : Int) - 2082844800 := by
  refine ⟨by decide, by decide⟩

/-- C5 (amended): for every `creation_time` below `2 ^ 63` — where the
`u64 as i64` cast preserves the value — an out-of-range mathematical
difference `creation_time - 2082844800` makes resolution fail with no
creation date produced. -/
theorem C5_amended (ct : Nat) (hlt : (ct : Int) < 2 ^ 63)
    (hout : (ct : Int) - 2082844800 < unixTsMin ∨
      unixTsMax < (ct : Int) - 2082844800) :
    mp4_creation_date ct = none := by
  rw [mp4_creation_date_eq_of_lt ct (lt_two_pow_63_of_int hlt)]
  unfold from_unix_timestamp
  rw [if_neg (by omega)]

/-- C5, witness: `creation_time = 300000000000` is out of range and
resolution fails. -/
theorem C5_witness : mp4_creation_date 300000000000 = none :=
  C5_amended 300000000000 (by decide) (Or.inr (by decide))

/-- Helper: the shape of `process_matroska`'s effects — either an error
with no effects, or a report of the resolved-plus-offset timestamp
followed by the rename call unless `dry_run` is set. -/
theorem process_matroska_eff_eq (parse : String → Option Int) (p : RPath)
    (doc : Matroska) (offset : Int) (dry : Bool) :
    process_matroska_eff parse p doc offset dry = ([], false) ∨
    ∃ r np, mkv_creation_date parse doc = some r ∧
      generate_new_path p (r + offset) = some np ∧
      process_matroska_eff parse p doc offset dry =
        (Effect.report p np (r + offset) ::
          (if dry then [] else [Effect.rename p np]), true) := by
  unfold process_matroska_eff
  cases hres : mkv_creation_date parse doc with
  | none => exact Or.inl rfl
  | some r =>
    cases hnp : generate_new_path p (r + offset) with
    | none => exact Or.inl (by simp [hnp])
    | some np => exact Or.inr ⟨r, np, rfl, hnp, by simp [hnp, maybe_do_rename]⟩

/-- Helper: the shape of `process_mp4`'s effects. -/
theorem process_mp4_eff_eq (p : RPath) (ct : Nat) (offset : Int) (dry : Bool) :
    process_mp4_eff p ct offset dry = ([], false) ∨
    ∃ r np, mp4_creation_date ct = some r ∧
      generate_new_path p (r + offset) = some np ∧
      process_mp4_eff p ct offset dry =
        (Effect.report p np (r + offset) ::
          (if dry then [] else [Effect.rename p np]), true) := by
  unfold process_mp4_eff
  cases hres : mp4_creation_date ct with
  | none => exact Or.inl rfl
  | some r =>
    cases hnp : generate_new_path p (r + offset) with
    | none => exact Or.inl (by simp [hnp])
    | some np => exact Or.inr ⟨r, np, rfl, hnp, by simp [hnp, maybe_do_rename]⟩

/-- Helper: once the run-wide offset is accepted, `main` processes every
file with that one offset and concatenates the per-file effects. -/
theorem main_model_effects (parse : String → Option Int) (tz : Option Int)
    (dry : Bool) (files : List (RPath × FileData)) (offset : Int)
    (h : computed_offset (tz.getD 0) = some offset) :
    (main_model parse tz dry files).1 =
      (files.map fun pf => (process_eff parse pf.1 pf.2 offset dry).1).flatten := by
  unfold main_model
  rw [h]
  suffices h2 : ∀ acc : List Effect × Bool,
      (files.foldl
        (fun acc pf =>
          let r := process_eff parse pf.1 pf.2 offset dry
          (acc.1 ++ r.1, acc.2 && r.2)) acc).1 =
      acc.1 ++ (files.map fun pf => (process_eff parse pf.1 pf.2 offset dry).1).flatten by
    simpa using h2 ([], true)
  induction files with
  | nil => intro acc; simp
  | cons f fs ih => intro acc; simp [ih, List.append_assoc]

/-- C6, counterexample: for the single-precision input 4660.421875 hours
(= 298267 / 64, exactly representable, supplied as `--tz-offset`
4660.421875), the code's offset is 16777518 seconds, while the value
times 3600 rounded to the nearest second is 16777519 (the exact product
is 16777518.75): the two `f32` multiplications round 16777518.75 down to
the even-mantissa value 16777518 before `.round()` ever runs. -/
theorem C6_counterexample :
    computed_offset (298267 * 2 ^ 143) = some 16777518 ∧
    (∀ r : Int, (298267 * 3600 - r * 64).natAbs * 2 ≤ 64 → r = 16777519) ∧
    (16777518 : Int) ≠ 16777519 := by
  refine ⟨by decide, ?_, by decide⟩
  intro r h
  omega

/-- C6 (amended): the run-wide offset in seconds is the user-supplied
fractional-hour value multiplied by 60 twice in single-precision
arithmetic and then rounded (ties away from zero) — for -3.5 hours that
is -12600 seconds, though for some inputs it differs by one from the
exact value times 3600 rounded to nearest; the offset is added to the
resolved timestamp of every processed file regardless of container kind,
and 1000000 + (-12600) = 987400. -/
theorem C6_offset_application :
    computed_offset (-(7 * 2 ^ 148)) = some (-12600) ∧
    (∀ (parse : String → Option Int) (p : RPath) (doc : Matroska)
        (offset : Int) (dry : Bool) (np : RPath) (t : Int),
        Effect.report p np t ∈
          (process_eff parse p (FileData.mkvData doc) offset dry).1 →
        ∃ r, mkv_creation_date parse doc = some r ∧ t = r + offset) ∧
    (∀ (parse : String → Option Int) (p : RPath) (ct : Nat)
        (offset : Int) (dry : Bool) (np : RPath) (t : Int),
        Effect.report p np t ∈
          (process_eff parse p (FileData.mp4Data ct) offset dry).1 →
        ∃ r, mp4_creation_date ct = some r ∧ t = r + offset) ∧
    (∀ (parse : String → Option Int) (tz : Option Int) (dry : Bool)
        (files : List (RPath × FileData)) (offset : Int),
        computed_offset (tz.getD 0) = some offset →
        (main_model parse tz dry files).1 =
          (files.map fun pf => (process_eff parse pf.1 pf.2 offset dry).1).flatten) ∧
    (1000000 : Int) + (-12600) = 987400 := by
  refine ⟨by decide, ?_, ?_, main_model_effects, by decide⟩
  · intro parse p doc offset dry np t hmem
    unfold process_eff at hmem
    cases hcl : classify p with
    | none => rw [hcl] at hmem; simp at hmem
    | some k =>
      rw [hcl] at hmem
      cases k with
      | mp4Kind => simp at hmem
      | matroska =>
        dsimp only at hmem
        rcases process_matroska_eff_eq parse p doc offset dry with heq |
          ⟨r, np', hres, hnp, heq⟩
        · rw [heq] at hmem; simp at hmem
        · rw [heq] at hmem
          refine ⟨r, hres, ?_⟩
          rcases List.mem_cons.mp hmem with h1 | h1
          · cases h1; rfl
          · cases dry <;> simp_all
  · intro parse p ct offset dry np t hmem
    unfold process_eff at hmem
    cases hcl : classify p with
    | none => rw [hcl] at hmem; simp at hmem
    | some k =>
      rw [hcl] at hmem
      cases k with
      | matroska => simp at hmem
      | mp4Kind =>
        dsimp only at hmem
        rcases process_mp4_eff_eq p ct offset dry with heq |
          ⟨r, np', hres, hnp, heq⟩
        · rw [heq] at hmem; simp at hmem
        · rw [heq] at hmem
          refine ⟨r, hres, ?_⟩
          rcases List.mem_cons.mp hmem with h1 | h1
          · cases h1; rfl
          · cases dry <;> simp_all

/-- C6, witness: a Matroska file processed with offset -12600 reports
timestamp resolved + (-12600). -/
theorem C6_witness :
    ∃ r, mkv_creation_date parseEx goodDoc = some r ∧
      (1681270501 : Int) + (-12600) = r + (-12600) :=
  C6_offset_application.2.1 parseEx pathEx goodDoc (-12600) true
    ⟨false, [Component.normal "folder",
      Component.normal "1681257901 IMG_4792.mkv"]⟩ (1681270501 + (-12600))
    (by decide)

/-- C7, counterexample: for the single-precision input 596523.25 hours
(= 2386093 / 4, exactly representable, supplied as `--tz-offset`
596523.25) the requested offset in seconds is 596523.25 * 3600 =
2147483700, which does not fit in the signed 32-bit range (maximum
2147483647); yet the check accepts it — the `f32` product is exactly
`2 ^ 31`, whose saturating cast to 2147483647 rounds back to `2 ^ 31` —
so no fatal configuration error occurs and the run silently uses offset
2147483647. -/
theorem C7_counterexample :
    computed_offset (2386093 * 2 ^ 147) = some 2147483647 ∧
    (2386093 * 3600 : Int) / 4 = 2147483700 ∧
    (2147483647 : Int) < 2147483700 :=
  ⟨by decide, by decide, by decide⟩

/-- C7 (amended): the upfront check accepts a computed single-precision
second value `x` exactly when `-2 ^ 31 ≤ x ≤ 2 ^ 31`: every value that
fits in `i32` is accepted, every value beyond that range is rejected as
the fatal configuration error — except the single boundary value
`2 ^ 31`, one above `i32::MAX`, which is accepted and silently saturated
to `2 ^ 31 - 1`; and when the check rejects, `main` stops before
processing any file, producing no effects. -/
theorem C7_offset_check :
    (∀ x : Int, roundToF32 x 0 = x * 2 ^ 149 →
        ((f32_to_i32 (x * 2 ^ 149)).isSome ↔ -(2 ^ 31) ≤ x ∧ x ≤ 2 ^ 31)) ∧
    (∀ (parse : String → Option Int) (tz : Option Int) (dry : Bool)
        (files : List (RPath × FileData)),
        computed_offset (tz.getD 0) = none →
        main_model parse tz dry files = ([], false)) := by
  constructor
  · intro x hx
    unfold f32_to_i32
    rw [Int.mul_tdiv_cancel x (by norm_num)]
    rcases lt_trichotomy x (-(2 ^ 31)) with h1 | h1 | h1
    · have hsat : i32sat x = -(2 ^ 31) := by
        unfold i32sat
        rw [min_eq_right (by omega), max_eq_left (by omega)]
      rw [hsat, show roundToF32 (-(2 ^ 31)) 0 = (-(2 ^ 31)) * 2 ^ 149 from by decide]
      rw [if_neg fun heq => by
        have := Int.eq_of_mul_eq_mul_right (by norm_num) heq
        omega]
      simp
      omega
    · have hsat : i32sat x = -(2 ^ 31) := by
        unfold i32sat
        rw [min_eq_right (by omega), max_eq_left (by omega)]
      rw [hsat, ← h1, hx, if_pos rfl]
      simp
      omega
    · rcases lt_trichotomy x (2 ^ 31) with h2 | h2 | h2
      · have hsat : i32sat x = x := by
          unfold i32sat
          rw [min_eq_right (by omega), max_eq_right (by omega)]
        rw [hsat, hx, if_pos rfl]
        simp
        omega
      · have hsat : i32sat x = 2 ^ 31 - 1 := by
          unfold i32sat
          rw [min_eq_left (by omega), max_eq_right (by omega)]
        rw [hsat, show roundToF32 (2 ^ 31 - 1) 0 = (2 ^ 31) * 2 ^ 149 from by decide,
          h2, if_pos rfl]
        simp
      · have hsat : i32sat x = 2 ^ 31 - 1 := by
          unfold i32sat
          rw [min_eq_left (by omega), max_eq_right (by omega)]
        rw [hsat, show roundToF32 (2 ^ 31 - 1) 0 = (2 ^ 31) * 2 ^ 149 from by decide]
        rw [if_neg fun heq => by
          have := Int.eq_of_mul_eq_mul_right (by norm_num) heq
          omega]
        simp
        omega
  · intro parse tz dry files h
    unfold main_model
    rw [h]

/-- C7, witness: the second value -12600 fits in `i32` and is accepted. -/
theorem C7_witness :
    (f32_to_i32 ((-12600) * 2 ^ 149)).isSome ↔
      -(2 ^ 31) ≤ (-12600 : Int) ∧ (-12600 : Int) ≤ 2 ^ 31 :=
  C7_offset_check.1 (-12600) (by decide)

/-- Helper: `Path::parent` on a nonempty path drops the last component. -/
theorem parent_eq (b : Bool) (l : List Component) (h : l ≠ []) :
    parent ⟨b, l⟩ = some ⟨b, l.dropLast⟩ := by
  unfold parent
  cases l with
  | nil => exact absurd rfl h
  | cons a as => rfl

/-- C8: for every original path with a file-name component `f` and every
final timestamp, the Path Namer succeeds and produces the path in the
same directory (same parent) whose file name is the decimal signed
timestamp, one space, then `f` unchanged; and the computation is
deterministic. -/
theorem C8_path_naming (p : RPath) (f : String) (ts : Int)
    (h : file_name p = some f) :
    ∃ q, generate_new_path p ts = some q ∧
      q = ⟨p.absolute, p.comps.dropLast ++
        [Component.normal (toString ts ++ " " ++ f)]⟩ ∧
      file_name q = some (toString ts ++ " " ++ f) ∧
      parent q = parent p ∧
      generate_new_path p ts = generate_new_path p ts := by
  have hne : p.comps ≠ [] := by
    intro hc
    unfold file_name at h
    rw [hc] at h
    simp at h
  refine ⟨⟨p.absolute, p.comps.dropLast ++
    [Component.normal (toString ts ++ " " ++ f)]⟩, ?_, rfl, ?_, ?_, rfl⟩
  · unfold generate_new_path with_file_name
    rw [h]
    simp [h]
  · unfold file_name
    simp [List.getLast?_concat]
  · rw [parent_eq _ _ (by simp), List.dropLast_concat]
    cases p with
    | mk b l => rw [parent_eq b l hne]

/-- C8, witness: `folder/IMG_4792.mkv` with timestamp 1681265941 becomes
`folder/1681265941 IMG_4792.mkv` (the repository's own test case). -/
theorem C8_witness :
    (∃ q, generate_new_path pathEx 1681265941 = some q ∧
      q = ⟨pathEx.absolute, pathEx.comps.dropLast ++
        [Component.normal (toString (1681265941 : Int) ++ " " ++ "IMG_4792.mkv")]⟩ ∧
      file_name q = some (toString (1681265941 : Int) ++ " " ++ "IMG_4792.mkv") ∧
      parent q = parent pathEx ∧
      generate_new_path pathEx 1681265941 = generate_new_path pathEx 1681265941) ∧
    generate_new_path pathEx 1681265941 =
      some ⟨false, [Component.normal "folder",
        Component.normal "1681265941 IMG_4792.mkv"]⟩ :=
  ⟨C8_path_naming pathEx "IMG_4792.mkv" 1681265941 (by decide), by decide⟩

/-- C9: with the dry-run flag set, processing performs no rename call
whatever the path, content and resolution outcome; a successfully
resolved file produces exactly its report line and nothing else. -/
theorem C9_dry_run (parse : String → Option Int) (p : RPath) (d : FileData)
    (offset : Int) :
    (∀ s q, Effect.rename s q ∉ (process_eff parse p d offset true).1) ∧
    ((process_eff parse p d offset true).2 = true →
      ∃ np t, (process_eff parse p d offset true).1 = [Effect.report p np t]) := by
  have hshape : process_eff parse p d offset true = ([], false) ∨
      ∃ np t, process_eff parse p d offset true = ([Effect.report p np t], true) := by
    unfold process_eff
    cases hcl : classify p with
    | none => cases d <;> exact Or.inl rfl
    | some k =>
      cases k with
      | matroska =>
        cases d with
        | mp4Data ct => exact Or.inl rfl
        | mkvData doc =>
          rcases process_matroska_eff_eq parse p doc offset true with heq |
            ⟨r, np, hres, hnp, heq⟩
          · exact Or.inl heq
          · exact Or.inr ⟨np, r + offset, by simpa using heq⟩
      | mp4Kind =>
        cases d with
        | mkvData doc => exact Or.inl rfl
        | mp4Data ct =>
          rcases process_mp4_eff_eq p ct offset true with heq |
            ⟨r, np, hres, hnp, heq⟩
          · exact Or.inl heq
          · exact Or.inr ⟨np, r + offset, by simpa using heq⟩
  rcases hshape with heq | ⟨np, t, heq⟩
  · rw [heq]
    exact ⟨fun s q hmem => by simp at hmem, fun hok => by simp at hok⟩
  · rw [heq]
    exact ⟨fun s q hmem => by simp at hmem, fun _ => ⟨np, t, rfl⟩⟩

/-- C9, witness: dry-run processing of a resolvable Matroska file makes
no rename call and yields only the report line. -/
theorem C9_witness :
    (∀ s q, Effect.rename s q ∉
      (process_eff parseEx pathEx (FileData.mkvData goodDoc) 0 true).1) ∧
    ((process_eff parseEx pathEx (FileData.mkvData goodDoc) 0 true).2 = true →
      ∃ np t, (process_eff parseEx pathEx (FileData.mkvData goodDoc) 0 true).1 =
        [Effect.report pathEx np t]) :=
  C9_dry_run parseEx pathEx (FileData.mkvData goodDoc) 0

/-- C10: every path the dispatcher classifies as a recognised container
kind has a nonempty file-name component, so the Path Namer's file-name
lookup (the source's `unwrap`) cannot fail for a dispatched path. -/
theorem C10_recognized_has_file_name (p : RPath) (k : ContainerKind)
    (h : classify p = some k) :
    ∃ f, file_name p = some f ∧ f ≠ "" := by
  have hext : ∃ e, extension p = some e := by
    unfold classify at h
    cases hx : extension p with
    | none => rw [hx] at h; simp at h
    | some e => exact ⟨e, rfl⟩
  obtain ⟨e, he⟩ := hext
  unfold extension at he
  cases hfn : file_name p with
  | none => rw [hfn] at he; simp at he
  | some f =>
    rw [hfn] at he
    refine ⟨f, rfl, ?_⟩
    rintro rfl
    simp [show rsplitDot "" = (none, some "") from by decide] at he

/-- C10, witness: `folder/IMG_4792.mkv` is classified as Matroska and
has the nonempty file name `IMG_4792.mkv`. -/
theorem C10_witness : ∃ f, file_name pathEx = some f ∧ f ≠ "" :=
  C10_recognized_has_file_name pathEx ContainerKind.matroska (by decide)

end MkvRename
